import Mathlib

/-!
Verification of the `csvpeek` CSV inspection tool (`src/main.rs`).

The development shallowly embeds the query-evaluation pipeline of the tool:

* `RowFilter.new` / `RowFilter.accepts` — the filter compiler and predicate
  evaluator (`impl RowFilter`);
* `resolveCols` — the projection resolver (`read_csv`, the `--cols` branch);
* `buildColIdx` — the header-name-to-index hashmap built in `read_csv`;
* `runLoop` — the record loop of `read_csv` (offset skip, filtering, limit);
* `read_csv` / `mainRun` — the whole invocation including info mode and the
  error reporting in `main`.

Rust strings are Lean `String`s; `str::split(c)` is modelled by `splitOnChar`
on the underlying character list, which matches Rust's semantics (splitting
an empty string yields one empty piece, `n` separators yield `n+1` pieces).
Rust panics (`panic!`, `Option::unwrap` on `None`) and propagated `Result`
errors are both modelled as values of `RunError`; the `isAbort` flag records
which of them are panics (a Rust panic aborts the process with exit code 101
and bypasses the `if let Err(err)` reporting in `main`, whereas a propagated
error is printed and turned into exit code 1).

The counters `rows_ignored` and `rows_processed` are `u32` in the source;
`rows_ignored` never exceeds `offset` (itself a `u32` argument) so it is
modelled as a plain `Nat`, while `rows_processed` is incremented without
bound when `max_rows = 0`, so its increment is taken modulo `2^32`.
-/

/-- Rust's `str::split(sep)` on the character list of a string: `n` occurrences
of the separator yield `n + 1` (possibly empty) pieces. -/
def splitOnChar (sep : Char) : List Char → List (List Char)
  | [] => [[]]
  | c :: rest =>
    if c == sep then [] :: splitOnChar sep rest
    else
      match splitOnChar sep rest with
      | [] => [[c]]
      | g :: gs => (c :: g) :: gs

/-- Model of Rust `filter_str.split(sep).collect::<Vec<&str>>()`. -/
def rustSplit (sep : Char) (s : String) : List String :=
  (splitOnChar sep s.data).map String.mk

/-- Model of Rust `str::contains(c)` for a single-character pattern. -/
def rustContains (c : Char) (s : String) : Bool :=
  s.data.contains c

/-- Model of Rust `Iterator::position` as used on the header iterator
(`headers.iter().position(|h| h == name)`): index of the first element
satisfying the test. -/
def position (p : String → Bool) : List String → Option Nat
  | [] => none
  | h :: t => if p h then some 0 else (position p t).map (· + 1)

/-- The column-name-to-index dictionary (`HashMap<String, usize>`) is modelled
as the list of its insertions, most recent first; lookup takes the most recent
binding, which matches `HashMap::insert` overwriting earlier bindings. -/
def hmGet (m : List (String × Nat)) (k : String) : Option Nat :=
  (m.find? (fun p => p.1 == k)).map (fun p => p.2)

/-- The loop in `read_csv` that inserts `(header, header_idx)` for each header
into `col_idx_hashmap`, starting from index `i` and an already-built map `m`
(insertions are consed on the front, see `hmGet`). -/
def buildColIdxAux : List String → Nat → List (String × Nat) → List (String × Nat)
  | [], _, m => m
  | h :: t, i, m => buildColIdxAux t (i + 1) ((h, i) :: m)

/-- The `col_idx_hashmap` of `read_csv`: header name to column index, later
duplicate headers overwriting earlier ones. -/
def buildColIdx (headers : List String) : List (String × Nat) :=
  buildColIdxAux headers 0 []

/-- Every way `read_csv` (and the code it calls) can terminate abnormally.
The first two are Rust panics, the last two are propagated `Result` errors. -/
inductive RunError where
  /-- `panic!("No operator for filter string {}", filter_str)` in `RowFilter::new`. -/
  | noOperatorAbort (filter_str : String)
  /-- a Rust `Option::unwrap()` on `None` (unknown filter column in
  `RowFilter::new`, or an out-of-range row access in `RowFilter::accepts`). -/
  | unwrapNoneAbort
  /-- the `"Column not found"` error propagated with `?` from the `--cols`
  resolution in `read_csv`. -/
  | columnNotFound
  /-- a `csv::Error` propagated with `?` from `result?` in the record loop. -/
  | recordReadError
deriving DecidableEq, Repr

/-- Whether the error is a Rust panic (process aborts, exit code 101)
rather than a propagated `Result` error (reported by `main`, exit code 1). -/
def RunError.isAbort : RunError → Bool
  | .noOperatorAbort _ => true
  | .unwrapNoneAbort => true
  | .columnNotFound => false
  | .recordReadError => false

/-- Display text of a propagated error, as interpolated by `main` into
`"Error reading or processing CSV: {}"`. Panic messages go to stderr and are
not modelled; the `csv::Error` display text is abstracted by a fixed string. -/
def RunError.message : RunError → String
  | .noOperatorAbort s => "No operator for filter string " ++ s
  | .unwrapNoneAbort => "called Option unwrap on a None value"
  | .columnNotFound => "Column not found"
  | .recordReadError => "CSV record read error"

/-- The `RowFilterOperator` enum of the source (only `EqualString` exists;
the numeric comparison variants are commented out in the code). -/
inductive RowFilterOperator where
  | EqualString
deriving DecidableEq, Repr

/-- The `RowFilter` struct of the source. -/
structure RowFilter where
  left_column : Option Nat
  right_column : Option Nat
  left_value : Option String
  right_value : Option String
  operator : RowFilterOperator
deriving DecidableEq, Repr

/-- `RowFilter::new(filter_str, col_idx_dict)`. The source checks
`filter_str.contains("=")`, splits on every `'='`, looks the first piece up in
the dictionary (`.unwrap()` panics when absent — `unwrapNoneAbort`) and takes
the *second* piece as the literal; a clause without `=` hits
`panic!("No operator for filter string {}")` — `noOperatorAbort`. The vector
indexing `left_and_right[0]`/`[1]` cannot be out of range because `contains`
guarantees at least two pieces, so `getD` never takes its default. -/
def RowFilter.new (filter_str : String) (col_idx_dict : List (String × Nat)) :
    Except RunError RowFilter :=
  if rustContains '=' filter_str then
    let left_and_right := rustSplit '=' filter_str
    match hmGet col_idx_dict (left_and_right.getD 0 "") with
    | none => .error .unwrapNoneAbort
    | some left_column =>
        .ok { left_column := some left_column
              right_column := none
              left_value := none
              right_value := some (left_and_right.getD 1 "")
              operator := .EqualString }
  else
    .error (.noOperatorAbort filter_str)

/-- `RowFilter::accepts(row)`: unwraps `left_column`, reads the row field at
that index (`row.get(i).unwrap()` panics when the row is too short), unwraps
`right_value` and compares the two strings. -/
def RowFilter.accepts (f : RowFilter) (row : List String) : Except RunError Bool :=
  match f.operator with
  | .EqualString =>
    match f.left_column with
    | none => .error .unwrapNoneAbort
    | some i =>
      match row.get? i with
      | none => .error .unwrapNoneAbort
      | some left_value =>
        match f.right_value with
        | none => .error .unwrapNoneAbort
        | some right_value => .ok (left_value == right_value)

/-- The inner `for filter in &_n_filters` loop of the record loop: the row is
accepted when every filter accepts it; the loop `continue`s to the next record
on the first rejecting filter, so later filters are not evaluated (and cannot
panic) once one has rejected. -/
def runFilters : List RowFilter → List String → Except RunError Bool
  | [], _ => .ok true
  | f :: fs, row =>
    match f.accepts row with
    | .error e => .error e
    | .ok false => .ok false
    | .ok true => runFilters fs row

/-- Left-to-right traversal stopping at the first error: the behavior both of
`collect::<Result<Vec<_>, _>>()` (projection resolution) and of the
filter-building `for` loop, whose `RowFilter::new` panics at the first bad
clause. -/
def collectE (f : α → Except RunError β) : List α → Except RunError (List β)
  | [] => .ok []
  | a :: l =>
    match f a with
    | .error e => .error e
    | .ok b =>
      match collectE f l with
      | .error e => .error e
      | .ok bs => .ok (b :: bs)

/-- Resolution of the `--cols` projection spec in `read_csv`: split on `','`,
look up each name with `position` on the headers, fail with the propagated
`"Column not found"` error on the first unresolved name (the
`collect::<Result<Vec<usize>, &str>>()?` short-circuits). `none` means the
option was absent and the projection is empty. -/
def resolveCols (headers : List String) : Option String → Except RunError (List Nat)
  | none => .ok []
  | some col_name =>
    collectE (fun name =>
      match position (fun h => h == name) headers with
      | some i => Except.ok i
      | none => Except.error RunError.columnNotFound) (rustSplit ',' col_name)

/-- Compilation of the `--filter` spec in `read_csv`: split on `','` and build
a `RowFilter` from each clause in order; the loop stops at the first clause
whose construction panics. -/
def compileFilters (col_idx_dict : List (String × Nat)) :
    Option String → Except RunError (List RowFilter)
  | none => .ok []
  | some filters_str =>
    collectE (fun filter_str => RowFilter.new filter_str col_idx_dict)
      (rustSplit ',' filters_str)

/-- Debug form of a `csv::StringRecord` as printed by `println!("{:?}", record)`
when no projection is set. Rust's escaping of special characters inside the
field strings is not modelled (no claim depends on it). -/
def stringRecordDebug (row : List String) : String :=
  "StringRecord([" ++ String.intercalate ", " (row.map fun s => "\x22" ++ s ++ "\x22") ++ "])"

/-- The line printed for one emitted record: with a projection, the selected
fields (`record.get(*i).unwrap_or_default()`) joined by `,`; without one, the
record's debug form. -/
def recordLine (cols : Option String) (col_indices : List Nat) (record : List String) : String :=
  match cols with
  | some _ => String.intercalate "," (col_indices.map fun i => (record.get? i).getD "")
  | none => stringRecordDebug record

/-- `2^32`, the modulus of the `u32` counter `rows_processed`. -/
def u32Mod : Nat := 4294967296

deriving instance DecidableEq for Except

/-- One record as yielded by `rdr.records()`: either a parsed row or a
`csv::Error` (the error payload is irrelevant to the tool, which only
propagates it). -/
abbrev RecordItem := Except Unit (List String)

/-- The `'records_loop` of `read_csv`, returning the lines printed, the error
that ended the loop (if any), and the records never pulled from the reader.
Mirrors the source exactly: while `rows_ignored < offset` the record is
skipped *before* its read result is checked; then `result?` propagates a read
error; then the filters run (panicking filters abort); an accepted record is
printed and `rows_processed` incremented (`u32` wrap), and the loop breaks
when it equals `max_rows`. -/
def runLoop (filters : List RowFilter) (cols : Option String) (col_indices : List Nat)
    (offset max_rows : Nat) :
    List RecordItem → Nat → Nat → List String × Option RunError × List RecordItem
  | [], _, _ => ([], none, [])
  | result :: rest, rows_ignored, rows_processed =>
    if rows_ignored < offset then
      runLoop filters cols col_indices offset max_rows rest (rows_ignored + 1) rows_processed
    else
      match result with
      | .error _ => ([], some .recordReadError, rest)
      | .ok record =>
        match runFilters filters record with
        | .error e => ([], some e, rest)
        | .ok false => runLoop filters cols col_indices offset max_rows rest rows_ignored rows_processed
        | .ok true =>
          let line := recordLine cols col_indices record
          let rp := (rows_processed + 1) % u32Mod
          if rp == max_rows then ([line], none, rest)
          else
            match runLoop filters cols col_indices offset max_rows rest rows_ignored rp with
            | (out, err, rem) => (line :: out, err, rem)

/-- A CSV input file, already parsed into its header record and the stream of
data-record read results. -/
structure CsvFile where
  headers : List String
  records : List RecordItem
deriving DecidableEq, Repr

/-- Outcome of `read_csv`: the lines printed before the record loop
(`headerOut`: the info-mode report or the projection header line), the lines
printed for emitted records (`dataOut`), the error that ended the call
(`none` for `Ok(())`), and the records never read. -/
structure RunResult where
  headerOut : List String
  dataOut : List String
  err : Option RunError
  unread : List RecordItem
deriving DecidableEq, Repr

/-- Everything a `RunResult` printed to standard output, in order. -/
def RunResult.stdout (r : RunResult) : List String :=
  r.headerOut ++ r.dataOut

/-- The info-mode branch of `read_csv`: the literal line `CSV columns:`, each
header name on its own line (counting them in `n_cols`), the column count,
then the row count obtained by iterating the remaining records. -/
def infoOutput (file : CsvFile) : List String :=
  "CSV columns:" :: file.headers
    ++ ["Number of columns: " ++ toString file.headers.length]
    ++ ["Number of rows: " ++ toString file.records.length]

/-- `read_csv(csv, cols, offset, max_rows, info, filters)`, with the opened
file abstracted as a `CsvFile`. Order of effects as in the source: info mode
returns early; the header hashmap is built; the projection is resolved and —
on success only — its header line printed; the filters are compiled; the
record loop runs. -/
def read_csv (file : CsvFile) (cols : Option String) (offset max_rows : Nat)
    (info : Bool) (filters : Option String) : RunResult :=
  if info then
    { headerOut := infoOutput file, dataOut := [], err := none, unread := [] }
  else
    let col_idx_hashmap := buildColIdx file.headers
    match resolveCols file.headers cols with
    | .error e => { headerOut := [], dataOut := [], err := some e, unread := file.records }
    | .ok col_indices =>
      let headerLines : List String :=
        match cols with
        | some _ => [String.intercalate "," (col_indices.map fun i => (file.headers.get? i).getD "")]
        | none => []
      match compileFilters col_idx_hashmap filters with
      | .error e => { headerOut := headerLines, dataOut := [], err := some e, unread := file.records }
      | .ok fs =>
        match runLoop fs cols col_indices offset max_rows file.records 0 0 with
        | (out, err, rem) =>
          { headerOut := headerLines, dataOut := out, err := err, unread := rem }

/-- Observable outcome of the whole process: standard-output lines and exit
code. -/
structure MainResult where
  stdout : List String
  exitCode : Nat
deriving DecidableEq, Repr

/-- `main`: a propagated error is printed as
`Error reading or processing CSV: {err}` (to standard output, via `println!`)
followed by `process::exit(1)`; a panic aborts the process with exit code 101
and its message on standard error; otherwise the process exits with 0. -/
def mainRun (file : CsvFile) (cols : Option String) (offset n : Nat) (info : Bool)
    (filters : Option String) : MainResult :=
  let r := read_csv file cols offset n info filters
  match r.err with
  | none => { stdout := r.stdout, exitCode := 0 }
  | some e =>
    if e.isAbort then
      { stdout := r.stdout, exitCode := 101 }
    else
      { stdout := r.stdout ++ ["Error reading or processing CSV: " ++ e.message],
        exitCode := 1 }

/-! ### Lemmas about splitting -/

theorem splitOnChar_ne_nil (sep : Char) (l : List Char) : splitOnChar sep l ≠ [] := by
  cases l with
  | nil => simp [splitOnChar]
  | cons c rest =>
    simp only [splitOnChar]
    split
    · simp
    · split <;> simp

theorem splitOnChar_of_not_mem (sep : Char) :
    ∀ (l : List Char), sep ∉ l → splitOnChar sep l = [l]
  | [], _ => rfl
  | c :: rest, h => by
    rw [List.mem_cons, not_or] at h
    have hc : (c == sep) = false := beq_eq_false_iff_ne.mpr fun e => h.1 e.symm
    have hrest := splitOnChar_of_not_mem sep rest h.2
    simp [splitOnChar, hc, hrest]

theorem splitOnChar_append_sep (sep : Char) :
    ∀ (xs ys : List Char), sep ∉ xs →
      splitOnChar sep (xs ++ sep :: ys) = xs :: splitOnChar sep ys
  | [], ys, _ => by simp [splitOnChar]
  | c :: xs, ys, h => by
    rw [List.mem_cons, not_or] at h
    have hc : (c == sep) = false := beq_eq_false_iff_ne.mpr fun e => h.1 e.symm
    have ih := splitOnChar_append_sep sep xs ys h.2
    simp [List.cons_append, splitOnChar, hc, ih]

theorem string_mk_data (s : String) : String.mk s.data = s := rfl

theorem data_append_sep (sep : String) (c : Char) (a b : String) (hsep : sep.data = [c]) :
    (a ++ sep ++ b).data = a.data ++ c :: b.data := by
  rw [String.data_append, String.data_append, hsep, List.append_assoc]
  rfl

theorem rustSplit_two (sep : Char) (sepS : String) (a b : String) (hsep : sepS.data = [sep])
    (ha : sep ∉ a.data) (hb : sep ∉ b.data) :
    rustSplit sep (a ++ sepS ++ b) = [a, b] := by
  rw [rustSplit, data_append_sep sepS sep a b hsep,
    splitOnChar_append_sep sep a.data (b.data) ha,
    splitOnChar_of_not_mem sep b.data hb]
  simp [string_mk_data]

theorem rustSplit_three (sep : Char) (sepS : String) (a b c : String) (hsep : sepS.data = [sep])
    (ha : sep ∉ a.data) (hb : sep ∉ b.data) :
    rustSplit sep (a ++ sepS ++ b ++ sepS ++ c) =
      a :: b :: (splitOnChar sep c.data).map String.mk := by
  have hdata : (a ++ sepS ++ b ++ sepS ++ c).data = a.data ++ sep :: (b.data ++ sep :: c.data) := by
    rw [String.data_append, String.data_append, String.data_append, String.data_append, hsep]
    simp [List.append_assoc]
  rw [rustSplit, hdata, splitOnChar_append_sep sep a.data _ ha,
    splitOnChar_append_sep sep b.data _ hb]
  simp [string_mk_data]

theorem rustContains_true_iff (c : Char) (s : String) :
    rustContains c s = true ↔ c ∈ s.data := by
  simp [rustContains, List.elem_iff, List.contains]

theorem rustContains_false_iff (c : Char) (s : String) :
    rustContains c s = false ↔ c ∉ s.data := by
  rw [← Bool.not_eq_true, rustContains_true_iff]

/-! ### Lemmas about name resolution (first vs last occurrence) -/

/-- Index (counting from base `i`) of the *last* occurrence of `k` in a list:
the reference function against which the hashmap lookup is characterized. -/
def lastIndexOfFrom (k : String) : List String → Nat → Option Nat
  | [], _ => none
  | h :: t, i =>
    match lastIndexOfFrom k t (i + 1) with
    | some j => some j
    | none => if h == k then some i else none

theorem hmGet_cons (k k' : String) (v : Nat) (m : List (String × Nat)) :
    hmGet ((k', v) :: m) k = if k' == k then some v else hmGet m k := by
  by_cases h : (k' == k) = true
  · simp [hmGet, List.find?_cons_of_pos, h]
  · rw [if_neg h]
    simp only [Bool.not_eq_true] at h
    simp [hmGet, List.find?_cons_of_neg, h]

theorem hmGet_buildColIdxAux (k : String) :
    ∀ (hs : List String) (i : Nat) (m : List (String × Nat)),
      hmGet (buildColIdxAux hs i m) k =
        match lastIndexOfFrom k hs i with
        | some j => some j
        | none => hmGet m k
  | [], _, _ => rfl
  | h :: t, i, m => by
    have ih := hmGet_buildColIdxAux k t (i + 1) ((h, i) :: m)
    simp only [buildColIdxAux, lastIndexOfFrom, ih, hmGet_cons]
    cases lastIndexOfFrom k t (i + 1) with
    | some j => rfl
    | none =>
      by_cases h' : (h == k) = true
      · simp [h']
      · simp [h']

theorem lastIndexOfFrom_spec (k : String) :
    ∀ (l : List String) (i j : Nat), lastIndexOfFrom k l i = some j →
      i ≤ j ∧ l.get? (j - i) = some k
  | [], _, _, h => by simp [lastIndexOfFrom] at h
  | a :: t, i, j, h => by
    simp only [lastIndexOfFrom] at h
    cases e : lastIndexOfFrom k t (i + 1) with
    | some j' =>
      rw [e] at h
      cases h
      obtain ⟨hle, hget⟩ := lastIndexOfFrom_spec k t (i + 1) j e
      refine ⟨by omega, ?_⟩
      have hj : j - i = (j - (i + 1)) + 1 := by omega
      rw [hj, List.get?_cons_succ]
      exact hget
    | none =>
      rw [e] at h
      by_cases hk : (a == k) = true
      · rw [if_pos hk] at h
        cases h
        refine ⟨le_refl i, ?_⟩
        simp only [Nat.sub_self, List.get?_cons_zero]
        rw [beq_iff_eq] at hk
        rw [hk]
      · rw [if_neg hk] at h
        cases h

theorem lastIndexOfFrom_exists (k : String) :
    ∀ (l : List String) (i m : Nat), l.get? m = some k →
      ∃ j, lastIndexOfFrom k l i = some j ∧ m + i ≤ j
  | [], _, m, h => by simp at h
  | a :: t, i, m, h => by
    cases m with
    | zero =>
      simp only [List.get?_cons_zero, Option.some.injEq] at h
      cases e : lastIndexOfFrom k t (i + 1) with
      | some j =>
        obtain ⟨hle, _⟩ := lastIndexOfFrom_spec k t (i + 1) j e
        exact ⟨j, by simp [lastIndexOfFrom, e], by omega⟩
      | none =>
        refine ⟨i, ?_, by omega⟩
        simp [lastIndexOfFrom, e, h]
    | succ n =>
      rw [List.get?_cons_succ] at h
      obtain ⟨j, hj, hle⟩ := lastIndexOfFrom_exists k t (i + 1) n h
      exact ⟨j, by simp [lastIndexOfFrom, hj], by omega⟩

theorem lastIndexOfFrom_last (k : String) :
    ∀ (l : List String) (i j : Nat), lastIndexOfFrom k l i = some j →
      ∀ m, j - i < m → l.get? m ≠ some k
  | [], _, _, h => by simp [lastIndexOfFrom] at h
  | a :: t, i, j, h => by
    intro m hm hget
    simp only [lastIndexOfFrom] at h
    cases e : lastIndexOfFrom k t (i + 1) with
    | some j' =>
      rw [e] at h
      cases h
      obtain ⟨hle, _⟩ := lastIndexOfFrom_spec k t (i + 1) j e
      cases m with
      | zero => omega
      | succ n =>
        rw [List.get?_cons_succ] at hget
        exact lastIndexOfFrom_last k t (i + 1) j e n (by omega) hget
    | none =>
      rw [e] at h
      by_cases hk : (a == k) = true
      · rw [if_pos hk] at h
        cases h
        cases m with
        | zero => omega
        | succ n =>
          rw [List.get?_cons_succ] at hget
          obtain ⟨j', hj', _⟩ := lastIndexOfFrom_exists k t (i + 1) n hget
          rw [hj'] at e
          cases e
      · rw [if_neg hk] at h
        cases h

theorem position_spec (p : String → Bool) :
    ∀ (l : List String) (i : Nat), position p l = some i →
      ∃ a, l.get? i = some a ∧ p a = true
  | [], _, h => Option.noConfusion h
  | a :: t, i, h => by
    simp only [position] at h
    by_cases hp : p a = true
    · rw [if_pos hp] at h
      cases h
      exact ⟨a, rfl, hp⟩
    · rw [if_neg hp] at h
      cases e : position p t with
      | none => rw [e] at h; cases h
      | some i' =>
        rw [e] at h
        simp only [Option.map_some', Option.some.injEq] at h
        obtain ⟨b, hb, hpb⟩ := position_spec p t i' e
        exact ⟨b, by rw [← h, List.get?_cons_succ]; exact hb, hpb⟩

theorem position_first (p : String → Bool) :
    ∀ (l : List String) (i : Nat), position p l = some i →
      ∀ m a, m < i → l.get? m = some a → p a = false
  | [], _, h => Option.noConfusion h
  | a :: t, i, h => by
    intro m b hm hget
    simp only [position] at h
    by_cases hp : p a = true
    · rw [if_pos hp] at h
      cases h
      omega
    · rw [if_neg hp] at h
      cases e : position p t with
      | none => rw [e] at h; cases h
      | some i' =>
        rw [e] at h
        simp only [Option.map_some', Option.some.injEq] at h
        cases m with
        | zero =>
          simp only [List.get?_cons_zero, Option.some.injEq] at hget
          rw [← hget]
          exact Bool.not_eq_true _ ▸ hp
        | succ n =>
          rw [List.get?_cons_succ] at hget
          exact position_first p t i' e n b (by omega) hget

theorem position_exists (p : String → Bool) :
    ∀ (l : List String) (i : Nat) (a : String), l.get? i = some a → p a = true →
      ∃ j, position p l = some j ∧ j ≤ i
  | [], i, a, h, _ => by simp at h
  | b :: t, i, a, h, hp => by
    by_cases hb : p b = true
    · exact ⟨0, by simp [position, hb], Nat.zero_le i⟩
    · cases i with
      | zero =>
        simp only [List.get?_cons_zero, Option.some.injEq] at h
        rw [h] at hb
        exact absurd hp hb
      | succ n =>
        rw [List.get?_cons_succ] at h
        obtain ⟨j, hj, hle⟩ := position_exists p t n a h hp
        exact ⟨j + 1, by simp [position, hb, hj], by omega⟩

/-! ### Lemmas about fail-fast collection and filter construction -/

theorem collectE_ok_mem {α β : Type} (f : α → Except RunError β) :
    ∀ (l : List α), (∃ v, collectE f l = .ok v) → ∀ x ∈ l, ∃ y, f x = .ok y
  | [], _, x, hx => by simp at hx
  | a :: l, ⟨v, hv⟩, x, hx => by
    simp only [collectE] at hv
    cases ha : f a with
    | error e => rw [ha] at hv; cases hv
    | ok b =>
      rw [ha] at hv
      cases hl : collectE f l with
      | error e => rw [hl] at hv; cases hv
      | ok bs =>
        rcases List.mem_cons.mp hx with h | h
        · exact ⟨b, h ▸ ha⟩
        · exact collectE_ok_mem f l ⟨bs, hl⟩ x h

theorem collectE_error_exists {α β : Type} (f : α → Except RunError β) (e : RunError) :
    ∀ (l : List α), collectE f l = .error e → ∃ x ∈ l, f x = .error e
  | [], h => by cases h
  | a :: l, h => by
    simp only [collectE] at h
    cases ha : f a with
    | error e' =>
      rw [ha] at h
      cases h
      exact ⟨a, List.mem_cons_self a l, ha⟩
    | ok b =>
      rw [ha] at h
      cases hl : collectE f l with
      | error e' =>
        rw [hl] at h
        cases h
        obtain ⟨x, hx, hfx⟩ := collectE_error_exists f e l hl
        exact ⟨x, List.mem_cons_of_mem a hx, hfx⟩
      | ok bs => rw [hl] at h; cases h

theorem collectE_error_of_mem {α β : Type} (f : α → Except RunError β) (e0 : RunError) :
    ∀ (l : List α), (∀ x ∈ l, f x = .error e0 ∨ ∃ y, f x = .ok y) →
      (∃ x ∈ l, f x = .error e0) → collectE f l = .error e0
  | [], _, hex => by simp at hex
  | a :: l, hall, ⟨x, hx, hfx⟩ => by
    rcases hall a (List.mem_cons_self a l) with ha | ⟨b, hb⟩
    · simp [collectE, ha]
    · have hxl : x ∈ l := by
        rcases List.mem_cons.mp hx with rfl | h
        · rw [hfx] at hb; cases hb
        · exact h
      have ih := collectE_error_of_mem f e0 l
        (fun y hy => hall y (List.mem_cons_of_mem a hy)) ⟨x, hxl, hfx⟩
      simp [collectE, hb, ih]

theorem rowFilterNew_no_eq (s : String) (d : List (String × Nat))
    (h : rustContains '=' s = false) :
    RowFilter.new s d = .error (.noOperatorAbort s) := by
  simp [RowFilter.new, h]

theorem rowFilterNew_with_eq (s : String) (d : List (String × Nat))
    (h : rustContains '=' s = true) :
    RowFilter.new s d =
      match hmGet d ((rustSplit '=' s).getD 0 "") with
      | none => .error .unwrapNoneAbort
      | some left_column =>
        .ok { left_column := some left_column
              right_column := none
              left_value := none
              right_value := some ((rustSplit '=' s).getD 1 "")
              operator := .EqualString } := by
  simp [RowFilter.new, h]

theorem rowFilterNew_error_isAbort (s : String) (d : List (String × Nat)) (e : RunError)
    (h : RowFilter.new s d = .error e) : e.isAbort = true := by
  by_cases hc : rustContains '=' s = true
  · rw [rowFilterNew_with_eq s d hc] at h
    cases hg : hmGet d ((rustSplit '=' s).getD 0 "") with
    | none => rw [hg] at h; cases h; rfl
    | some i => rw [hg] at h; cases h
  · rw [Bool.not_eq_true] at hc
    rw [rowFilterNew_no_eq s d hc] at h
    cases h
    rfl

/-! ### Lemmas about the record loop -/

theorem runLoop_nil (fs : List RowFilter) (cols : Option String) (ci : List Nat)
    (offset n j rp : Nat) : runLoop fs cols ci offset n [] j rp = ([], none, []) := rfl

theorem runLoop_skip (fs : List RowFilter) (cols : Option String) (ci : List Nat)
    (offset n : Nat) :
    ∀ (recs : List RecordItem) (j rp : Nat), j ≤ offset →
      runLoop fs cols ci offset n recs j rp =
        runLoop fs cols ci offset n (recs.drop (offset - j)) offset rp
  | [], j, rp, h => by rw [List.drop_nil]; rfl
  | r :: rest, j, rp, h => by
    by_cases hj : j < offset
    · have ih := runLoop_skip fs cols ci offset n rest (j + 1) rp (by omega)
      have hd : offset - j = (offset - (j + 1)) + 1 := by omega
      simp only [runLoop, if_pos hj, ih, hd, List.drop_succ_cons]
    · have hje : j = offset := by omega
      subst hje
      rw [Nat.sub_self, List.drop_zero]

theorem runLoop_counters (fs : List RowFilter) (cols : Option String) (ci : List Nat)
    (n : Nat) :
    ∀ (recs : List RecordItem) (offset j offset' j' rp : Nat),
      offset ≤ j → offset' ≤ j' →
      runLoop fs cols ci offset n recs j rp = runLoop fs cols ci offset' n recs j' rp
  | [], _, _, _, _, _, _, _ => rfl
  | r :: rest, offset, j, offset', j', rp, h, h' => by
    have hj : ¬ j < offset := by omega
    have hj' : ¬ j' < offset' := by omega
    cases r with
    | error u => simp [runLoop, if_neg hj, if_neg hj']
    | ok record =>
      simp only [runLoop, if_neg hj, if_neg hj']
      cases hf : runFilters fs record with
      | error e => simp [hf]
      | ok b =>
        cases b with
        | false =>
          simp only [hf]
          exact runLoop_counters fs cols ci n rest offset j offset' j' rp h h'
        | true =>
          cases hbr : ((rp + 1) % u32Mod == n) with
          | true => simp [hf, hbr]
          | false =>
            simp [hf, hbr,
              runLoop_counters fs cols ci n rest offset j offset' j' ((rp + 1) % u32Mod) h h']

theorem runLoop_emit_all (cols : Option String) (ci : List Nat) (offset n : Nat) :
    ∀ (rows : List (List String)) (j rp : Nat), offset ≤ j → rp < n → n < u32Mod →
      runLoop [] cols ci offset n (rows.map Except.ok) j rp =
        ((rows.take (n - rp)).map (recordLine cols ci), none,
          (rows.map Except.ok).drop (n - rp))
  | [], j, rp, hj, hrp, hn => by simp [runLoop_nil]
  | row :: rows, j, rp, hj, hrp, hn => by
    have hnj : ¬ j < offset := by omega
    have hmod : (rp + 1) % u32Mod = rp + 1 := Nat.mod_eq_of_lt (by omega)
    by_cases hbr : rp + 1 = n
    · have hcond : ((rp + 1) % u32Mod == n) = true := by
        rw [hmod]; exact beq_iff_eq.mpr hbr
      have h1 : n - rp = 1 := by omega
      simp [List.map_cons, runLoop, if_neg hnj, runFilters, hcond, h1]
    · have hcond : ((rp + 1) % u32Mod == n) = false := by
        rw [hmod]; exact beq_eq_false_iff_ne.mpr hbr
      have ih := runLoop_emit_all cols ci offset n rows j (rp + 1) hj (by omega) hn
      have hsub : n - rp = (n - (rp + 1)) + 1 := by omega
      simp only [List.map_cons, runLoop, if_neg hnj, runFilters, hcond, hmod, ih]
      rw [hsub]
      simp [List.take_succ_cons, List.drop_succ_cons]
      exact fun hcontr => absurd hcontr hbr

theorem read_csv_plain (file : CsvFile) (offset n : Nat) :
    read_csv file none offset n false none =
      { headerOut := [], dataOut := (runLoop [] none [] offset n file.records 0 0).1,
        err := (runLoop [] none [] offset n file.records 0 0).2.1,
        unread := (runLoop [] none [] offset n file.records 0 0).2.2 } := rfl

/-! ### Claims -/

/-- Claim C1. The claim states that an emission limit of 0 emits zero data
rows, terminates immediately after the header, and performs no filter
evaluations. The code disagrees: the limit check `rows_processed == max_rows`
runs only *after* a row has been printed, so with `max_rows = 0` it never
fires; on a one-column file with rows `x` and `y` and filter `a=x`, the run
emits the row `x` (so the filter was evaluated on every record) and consumes
the whole stream (`unread = []`). -/
theorem c1_limit_zero_emits_rows :
    read_csv ⟨["a"], [Except.ok ["x"], Except.ok ["y"]]⟩ none 0 0 false (some "a=x")
      = { headerOut := [], dataOut := [stringRecordDebug ["x"]],
          err := none, unread := [] } := by rfl

/-- Claim C2, counterexample. The claim states that the literal of clause
`COL=a=b` is everything after the first `=`, i.e. `a=b`. In the code,
`split('=')` splits on *every* `=` and `left_and_right[1]` keeps only the
second piece, so the literal is `a`, not `a=b`. -/
theorem c2_counterexample_literal_truncated :
    (RowFilter.new "COL=a=b" [("COL", 0)]).map RowFilter.right_value
        = Except.ok (some "a") ∧
    (RowFilter.new "COL=a=b" [("COL", 0)]).map RowFilter.right_value
        ≠ Except.ok (some "a=b") := by
  constructor
  · rfl
  · decide

/-- Helper: a string of the form `x ++ "=" ++ y` contains `'='`. -/
theorem contains_eq_append (x y : String) : rustContains '=' (x ++ "=" ++ y) = true := by
  rw [rustContains_true_iff, String.data_append, String.data_append]
  have h : ("=" : String).data = ['='] := rfl
  rw [h]
  simp

/-- Claim C2, amended. For a clause with at least one `=`, the column name is
the text before the first `=`, and the literal is the text *between the first
and the second* `=` (everything from the second `=` onwards is dropped); for a
clause with exactly one `=` the literal is everything after it. So `COL=a=b`
yields literal `a`, not `a=b`. -/
theorem c2_amended_literal_is_second_piece (a b c : String)
    (dict : List (String × Nat)) (ia : Nat)
    (ha : '=' ∉ a.data) (hb : '=' ∉ b.data)
    (hia : hmGet dict a = some ia) :
    RowFilter.new (a ++ "=" ++ b) dict
      = .ok { left_column := some ia, right_column := none, left_value := none,
              right_value := some b, operator := .EqualString } ∧
    RowFilter.new (a ++ "=" ++ b ++ "=" ++ c) dict
      = .ok { left_column := some ia, right_column := none, left_value := none,
              right_value := some b, operator := .EqualString } := by
  have hsepd : ("=" : String).data = ['='] := rfl
  constructor
  · rw [rowFilterNew_with_eq _ _ (contains_eq_append a b),
      rustSplit_two '=' "=" a b hsepd ha hb]
    simp [hia]
  · rw [rowFilterNew_with_eq _ _ (contains_eq_append (a ++ "=" ++ b) c),
      rustSplit_three '=' "=" a b c hsepd ha hb]
    simp [hia]

/-- Claim C2, witness for the amended theorem at clause `COL=a=b` over a
one-entry dictionary. -/
theorem c2_amended_witness :
    RowFilter.new ("COL" ++ "=" ++ "a") [("COL", 0)]
      = .ok { left_column := some 0, right_column := none, left_value := none,
              right_value := some "a", operator := .EqualString } ∧
    RowFilter.new ("COL" ++ "=" ++ "a" ++ "=" ++ "b") [("COL", 0)]
      = .ok { left_column := some 0, right_column := none, left_value := none,
              right_value := some "a", operator := .EqualString } :=
  c2_amended_literal_is_second_piece "COL" "a" "b" [("COL", 0)] 0
    (by decide) (by decide) (by decide)

/-- Claim C3, counterexample. The claim states that a filter clause with no
`=` is reported as an error: a message is printed and the process exits with
code 1. In the code the clause hits `panic!("No operator for filter string")`,
which aborts the process with Rust's panic exit code 101 and never reaches the
error-reporting branch of `main`. -/
theorem c3_counterexample_no_eq_clause_panics :
    (mainRun ⟨["a"], [Except.ok ["x"]]⟩ none 0 10 false (some "abc")).exitCode = 101 ∧
    (mainRun ⟨["a"], [Except.ok ["x"]]⟩ none 0 10 false (some "abc")).exitCode ≠ 1 := by
  constructor
  · rfl
  · decide

/-- Claim C3, amended. When the filter-set string contains a clause with no
`=`, compilation stops at the first failing clause with a panic (the no-`=`
clause hits `panic!("No operator for filter string ...")`; an earlier clause
with an unknown column would hit the `unwrap` panic) — in every case the
process aborts with the panic exit code 101, printing nothing on the standard
output reporting path, instead of the claimed printed-message-and-exit-1. -/
theorem c3_amended_no_eq_clause_aborts (file : CsvFile) (offset n : Nat) (fstr : String)
    (hbad : ∃ c ∈ rustSplit ',' fstr, rustContains '=' c = false) :
    (mainRun file none offset n false (some fstr)).exitCode = 101 ∧
    (mainRun file none offset n false (some fstr)).stdout = [] := by
  cases hc : compileFilters (buildColIdx file.headers) (some fstr) with
  | ok v =>
    exfalso
    obtain ⟨c, hcmem, hcfalse⟩ := hbad
    obtain ⟨y, hy⟩ := collectE_ok_mem (fun s => RowFilter.new s (buildColIdx file.headers))
      (rustSplit ',' fstr) ⟨v, hc⟩ c hcmem
    rw [rowFilterNew_no_eq c _ hcfalse] at hy
    cases hy
  | error e =>
    have habort : e.isAbort = true := by
      obtain ⟨x, hx, hfx⟩ := collectE_error_exists
        (fun s => RowFilter.new s (buildColIdx file.headers)) e (rustSplit ',' fstr) hc
      exact rowFilterNew_error_isAbort x _ e hfx
    have hread : read_csv file none offset n false (some fstr)
        = { headerOut := [], dataOut := [], err := some e, unread := file.records } := by
      simp [read_csv, resolveCols, compileFilters] at hc ⊢
      simp [hc]
    simp [mainRun, hread, habort, RunResult.stdout]

/-- Claim C3, witness for the amended theorem: a one-clause filter string with
no `=` on a one-column file. -/
theorem c3_amended_witness :
    (mainRun ⟨["a"], [Except.ok ["x"]]⟩ none 0 10 false (some "noeq")).exitCode = 101 ∧
    (mainRun ⟨["a"], [Except.ok ["x"]]⟩ none 0 10 false (some "noeq")).stdout = [] :=
  c3_amended_no_eq_clause_aborts ⟨["a"], [Except.ok ["x"]]⟩ 0 10 "noeq"
    ⟨"noeq", by decide, by decide⟩

/-- Claim C4. Whenever the `--cols` spec names a column absent from the
header, or the `--filter` spec (with every clause well-formed, i.e. containing
`=`) names a column absent from the header, the invocation fails with the
code's unknown-column failure for the first unresolved name — the propagated
`"Column not found"` for a projection, the `unwrap`-on-`None` for a filter —
and no data line is printed, whatever the record count, offset or limit. -/
theorem c4_unknown_column_fails_before_data (file : CsvFile) (cols filters : Option String)
    (offset n : Nat)
    (hcase :
      (∃ s, cols = some s ∧ ∃ name ∈ rustSplit ',' s,
          position (fun h => h == name) file.headers = none) ∨
      ((∃ v, resolveCols file.headers cols = Except.ok v) ∧
        ∃ fs, filters = some fs ∧
          (∀ c ∈ rustSplit ',' fs, rustContains '=' c = true) ∧
          ∃ c ∈ rustSplit ',' fs,
            hmGet (buildColIdx file.headers) ((rustSplit '=' c).getD 0 "") = none)) :
    (∃ e, (read_csv file cols offset n false filters).err = some e ∧
        (e = .columnNotFound ∨ e = .unwrapNoneAbort)) ∧
    (read_csv file cols offset n false filters).dataOut = [] ∧
    (mainRun file cols offset n false filters).exitCode ≠ 0 := by
  rcases hcase with ⟨s, rfl, name, hmem, hpos⟩ | ⟨⟨v, hv⟩, fs, rfl, hall, c, hcmem, hcnone⟩
  · have hres : resolveCols file.headers (some s) = .error .columnNotFound := by
      apply collectE_error_of_mem
      · intro x _
        cases hp : position (fun h => h == x) file.headers with
        | none => left; simp [hp]
        | some i => right; exact ⟨i, by simp [hp]⟩
      · exact ⟨name, hmem, by simp [hpos]⟩
    have hread : read_csv file (some s) offset n false filters
        = { headerOut := [], dataOut := [], err := some .columnNotFound,
            unread := file.records } := by
      simp [read_csv, hres]
    refine ⟨⟨.columnNotFound, by rw [hread], Or.inl rfl⟩, by rw [hread], ?_⟩
    simp [mainRun, hread, RunError.isAbort]
  · have hcompile : compileFilters (buildColIdx file.headers) (some fs)
        = .error .unwrapNoneAbort := by
      apply collectE_error_of_mem
      · intro x hx
        rw [rowFilterNew_with_eq x _ (hall x hx)]
        cases hg : hmGet (buildColIdx file.headers) ((rustSplit '=' x).getD 0 "") with
        | none => left; rfl
        | some i => right; exact ⟨_, rfl⟩
      · exact ⟨c, hcmem, by rw [rowFilterNew_with_eq c _ (hall c hcmem), hcnone]⟩
    have hread : (read_csv file cols offset n false (some fs)).err
          = some .unwrapNoneAbort ∧
        (read_csv file cols offset n false (some fs)).dataOut = [] := by
      cases cols with
      | none => simp [read_csv, resolveCols, hcompile]
      | some s => simp [read_csv, hv, hcompile]
    obtain ⟨he, hd⟩ := hread
    refine ⟨⟨.unwrapNoneAbort, he, Or.inr rfl⟩, hd, ?_⟩
    simp [mainRun, he, RunError.isAbort]

/-- Claim C4, witness: the projection `zz` does not resolve on a one-column
file, the run errors and prints no data line. -/
theorem c4_witness :
    (∃ e, (read_csv ⟨["a"], [Except.ok ["x"]]⟩ (some "zz") 0 10 false none).err = some e ∧
        (e = .columnNotFound ∨ e = .unwrapNoneAbort)) ∧
    (read_csv ⟨["a"], [Except.ok ["x"]]⟩ (some "zz") 0 10 false none).dataOut = [] ∧
    (mainRun ⟨["a"], [Except.ok ["x"]]⟩ (some "zz") 0 10 false none).exitCode ≠ 0 :=
  c4_unknown_column_fails_before_data ⟨["a"], [Except.ok ["x"]]⟩ (some "zz") none 0 10
    (Or.inl ⟨"zz", rfl, "zz", by decide, by decide⟩)

/-- Claim C5, counterexample. The claim states that a malformed record is
propagated and aborts the stream even when it lies inside the offset-skip
region. In the code the skip branch `continue`s *before* checking `result?`,
so an error at position 0 with `offset = 1` is silently swallowed and the
following row is emitted normally. -/
theorem c5_counterexample_skip_swallows_error :
    read_csv ⟨["a"], [Except.error (), Except.ok ["x"]]⟩ none 1 10 false none
      = { headerOut := [], dataOut := [stringRecordDebug ["x"]],
          err := none, unread := [] } := by rfl

/-- Claim C5, amended. A read error propagates and aborts the remaining
stream only when the failing record lies *at or after* the offset position:
the first `offset` records (here `pre`, of arbitrary content — including
malformed records) are skipped without their read result ever being checked,
and the first error at or after the offset aborts with `RecordReadError`,
leaving the rest of the stream unread and nothing emitted. -/
theorem c5_amended_read_error_after_skip (headers : List String)
    (pre post : List RecordItem) (n : Nat) (offset : Nat) (hoff : offset = pre.length) :
    read_csv ⟨headers, pre ++ Except.error () :: post⟩ none offset n false none
      = { headerOut := [], dataOut := [], err := some .recordReadError,
          unread := post } := by
  subst hoff
  rw [read_csv_plain]
  have hskip := runLoop_skip [] none [] pre.length n
    (pre ++ Except.error () :: post) 0 0 (Nat.zero_le _)
  rw [Nat.sub_zero, List.drop_left] at hskip
  have hstep : runLoop [] none [] pre.length n (Except.error () :: post) pre.length 0
      = ([], some .recordReadError, post) := by
    simp [runLoop]
  rw [hskip, hstep]

/-- Claim C5, witness for the amended theorem: skip one arbitrary record, then
hit an error record; the error propagates and the remaining stream is unread. -/
theorem c5_amended_witness :
    read_csv ⟨["a"], [Except.ok ["skipped"]] ++ Except.error () :: [Except.ok ["x"]]⟩
        none 1 10 false none
      = { headerOut := [], dataOut := [], err := some .recordReadError,
          unread := [Except.ok ["x"]] } :=
  c5_amended_read_error_after_skip ["a"] [Except.ok ["skipped"]] [Except.ok ["x"]] 10 1
    (by decide)

/-- Claim C6, counterexample. The claim states info mode prints exactly the N
header lines, the column-count line and the row-count line, and nothing else.
The code prints a leading `CSV columns:` line first, so on a 2-column, 1-row
file the output has five lines, not the claimed four. -/
theorem c6_counterexample_info_extra_line :
    (mainRun ⟨["a", "b"], [Except.ok ["1", "2"]]⟩ none 0 10 true none).stdout
      = ["CSV columns:", "a", "b", "Number of columns: 2", "Number of rows: 1"] ∧
    (mainRun ⟨["a", "b"], [Except.ok ["1", "2"]]⟩ none 0 10 true none).stdout
      ≠ ["a", "b", "Number of columns: 2", "Number of rows: 1"] := by
  constructor
  · rfl
  · decide

/-- Claim C6, amended. Info mode on an N-column, M-row file prints a leading
`CSV columns:` line, then the N header names one per line, then
`Number of columns: N`, then `Number of rows: M`, and nothing else; every
query option (projection, filters, offset, limit) is ignored and the run
succeeds with exit code 0. -/
theorem c6_amended_info_output (headers : List String) (records : List RecordItem)
    (cols filters : Option String) (offset n : Nat) :
    (read_csv ⟨headers, records⟩ cols offset n true filters).stdout
      = "CSV columns:" :: headers
          ++ ["Number of columns: " ++ toString headers.length,
              "Number of rows: " ++ toString records.length] ∧
    (read_csv ⟨headers, records⟩ cols offset n true filters).err = none ∧
    (mainRun ⟨headers, records⟩ cols offset n true filters).exitCode = 0 := by
  refine ⟨?_, rfl, rfl⟩
  simp [read_csv, RunResult.stdout, infoOutput]

/-- Claim C7. For a compiled equality predicate with resolved column index `i`
and literal `V`, and a row whose field at index `i` is `v`, `accepts` returns
exactly the string comparison `v == V`: it is `true` iff the field equals the
literal as an exact string. -/
theorem c7_accepts_iff_field_equals (i : Nat) (V v : String) (row : List String)
    (hrow : row.get? i = some v) :
    (RowFilter.mk (some i) none none (some V) .EqualString).accepts row
        = Except.ok (v == V) ∧
    ((RowFilter.mk (some i) none none (some V) .EqualString).accepts row
        = Except.ok true ↔ v = V) := by
  have hacc : (RowFilter.mk (some i) none none (some V) .EqualString).accepts row
      = Except.ok (v == V) := by
    simp only [RowFilter.accepts]
    rw [hrow]
  refine ⟨hacc, ?_⟩
  rw [hacc]
  simp

/-- Claim C7, witness at the test fixture of the source: column 2, literal
`file1.png`, matching and non-matching rows. -/
theorem c7_witness :
    ((RowFilter.mk (some 2) none none (some "file1.png") .EqualString).accepts
        ["a", "b", "file1.png"] = Except.ok ("file1.png" == "file1.png") ∧
      ((RowFilter.mk (some 2) none none (some "file1.png") .EqualString).accepts
        ["a", "b", "file1.png"] = Except.ok true ↔ "file1.png" = "file1.png")) ∧
    ((RowFilter.mk (some 2) none none (some "file1.png") .EqualString).accepts
        ["a", "b", "file2.png"] = Except.ok ("file2.png" == "file1.png") ∧
      ((RowFilter.mk (some 2) none none (some "file1.png") .EqualString).accepts
        ["a", "b", "file2.png"] = Except.ok true ↔ "file2.png" = "file1.png")) :=
  ⟨c7_accepts_iff_field_equals 2 "file1.png" "file1.png" ["a", "b", "file1.png"] rfl,
    c7_accepts_iff_field_equals 2 "file1.png" "file2.png" ["a", "b", "file2.png"] rfl⟩

theorem runFilters_ok_true_iff :
    ∀ (fs : List RowFilter) (row : List String),
      runFilters fs row = Except.ok true ↔ ∀ f ∈ fs, f.accepts row = Except.ok true
  | [], row => by simp [runFilters]
  | f :: fs, row => by
    constructor
    · intro h g hg
      rcases List.mem_cons.mp hg with rfl | hmem
      · cases ha : g.accepts row with
        | error e => rw [runFilters, ha] at h; cases h
        | ok b =>
          cases b with
          | false => rw [runFilters, ha] at h; cases h
          | true => rfl
      · cases ha : f.accepts row with
        | error e => rw [runFilters, ha] at h; cases h
        | ok b =>
          cases b with
          | false => rw [runFilters, ha] at h; cases h
          | true =>
            rw [runFilters, ha] at h
            exact (runFilters_ok_true_iff fs row).mp h g hmem
    · intro h
      have hf := h f (List.mem_cons_self f fs)
      rw [runFilters, hf]
      exact (runFilters_ok_true_iff fs row).mpr fun g hg => h g (List.mem_cons_of_mem f hg)

theorem runFilters_cons_false (f : RowFilter) (fs : List RowFilter) (row : List String)
    (h : f.accepts row = Except.ok false) :
    runFilters (f :: fs) row = Except.ok false := by
  rw [runFilters, h]

theorem runLoop_reject (fs : List RowFilter) (cols : Option String) (ci : List Nat)
    (offset n : Nat) (record : List String) (rest : List RecordItem) (j rp : Nat)
    (hj : offset ≤ j) (hrej : runFilters fs record = Except.ok false) :
    runLoop fs cols ci offset n (Except.ok record :: rest) j rp
      = runLoop fs cols ci offset n rest j rp := by
  have hnj : ¬ j < offset := by omega
  simp [runLoop, if_neg hnj, hrej]

/-- Claim C8. A row is accepted by the filter set iff every compiled predicate
accepts it (logical AND); the empty filter set accepts vacuously; evaluation
short-circuits on the first rejecting predicate (later predicates are not
evaluated — `runFilters` returns `ok false`, not whatever a later predicate
would have produced), and the record loop then simply moves on to the next
record without emitting. -/
theorem c8_filter_set_and_semantics :
    (∀ (fs : List RowFilter) (row : List String),
        runFilters fs row = Except.ok true ↔ ∀ f ∈ fs, f.accepts row = Except.ok true) ∧
    (∀ (f : RowFilter) (fs : List RowFilter) (row : List String),
        f.accepts row = Except.ok false → runFilters (f :: fs) row = Except.ok false) ∧
    (∀ (fs : List RowFilter) (cols : Option String) (ci : List Nat)
        (offset n : Nat) (record : List String) (rest : List RecordItem) (j rp : Nat),
        offset ≤ j → runFilters fs record = Except.ok false →
        runLoop fs cols ci offset n (Except.ok record :: rest) j rp
          = runLoop fs cols ci offset n rest j rp) ∧
    (∀ row : List String, runFilters [] row = Except.ok true) :=
  ⟨runFilters_ok_true_iff,
    runFilters_cons_false,
    fun fs cols ci offset n record rest j rp hj hrej =>
      runLoop_reject fs cols ci offset n record rest j rp hj hrej,
    fun _ => rfl⟩

/-- Claim C8, witness: the first predicate rejects the row, so the filter set
rejects it with `ok false` even though the second predicate (column index 5)
would have panicked on this one-field row had it been evaluated. -/
theorem c8_witness :
    runFilters
      [RowFilter.mk (some 0) none none (some "x") .EqualString,
       RowFilter.mk (some 5) none none (some "y") .EqualString] ["z"]
      = Except.ok false :=
  c8_filter_set_and_semantics.2.1
    (RowFilter.mk (some 0) none none (some "x") .EqualString)
    [RowFilter.mk (some 5) none none (some "y") .EqualString] ["z"] (by decide)

/-- Claim C9. With no filters, offset `K` and nonzero limit `L` (a `u32`),
the evaluator drops the first `K` data rows unfiltered, emits the next at
most `L` rows in file order (their debug form, since no projection is set),
ends without error, and stops consuming the stream once `L` rows have been
emitted: the records after position `K + L` are never read. -/
theorem c9_offset_limit_window (headers : List String) (rows : List (List String))
    (K L : Nat) (hL : L ≠ 0) (hLu : L < u32Mod) :
    read_csv ⟨headers, rows.map Except.ok⟩ none K L false none
      = { headerOut := [], dataOut := ((rows.drop K).take L).map stringRecordDebug,
          err := none, unread := (rows.map Except.ok).drop (K + L) } := by
  rw [read_csv_plain]
  have h1 := runLoop_skip [] none [] K L (rows.map Except.ok) 0 0 (Nat.zero_le K)
  rw [Nat.sub_zero] at h1
  have hdm : ((rows.map Except.ok : List RecordItem)).drop K
      = ((rows.drop K).map Except.ok : List RecordItem) := by
    rw [List.map_drop]
  rw [hdm] at h1
  have h2 := runLoop_emit_all none [] K L (rows.drop K) K 0 (le_refl K) (by omega) hLu
  rw [Nat.sub_zero] at h2
  have hrl : recordLine none ([] : List Nat) = stringRecordDebug := by
    funext r; rfl
  have hun : (((rows.drop K).map Except.ok : List RecordItem)).drop L
      = ((rows.map Except.ok : List RecordItem)).drop (K + L) := by
    rw [← hdm, List.drop_drop, Nat.add_comm]
  rw [h1, h2, hrl]
  simp [hun]

/-- Claim C9, witness: an 8-row file with offset 2 and limit 3 emits exactly
rows 3, 4, 5 (1-indexed) and leaves rows 6, 7, 8 unread. -/
theorem c9_witness :
    read_csv ⟨["a"], [["r1"], ["r2"], ["r3"], ["r4"], ["r5"], ["r6"], ["r7"],
        ["r8"]].map Except.ok⟩ none 2 3 false none
      = { headerOut := [],
          dataOut := (([["r1"], ["r2"], ["r3"], ["r4"], ["r5"], ["r6"], ["r7"],
            ["r8"]].drop 2).take 3).map stringRecordDebug,
          err := none,
          unread := ([["r1"], ["r2"], ["r3"], ["r4"], ["r5"], ["r6"], ["r7"],
            ["r8"]].map Except.ok).drop (2 + 3) } :=
  c9_offset_limit_window ["a"]
    [["r1"], ["r2"], ["r3"], ["r4"], ["r5"], ["r6"], ["r7"], ["r8"]] 2 3
    (by decide) (by decide)

/-- Claim C10. When a header name occurs at two different positions, the
filter compiler (which looks the name up in the hashmap built by insertion,
later inserts overwriting earlier ones) resolves it to the index of its *last*
occurrence, while the projection resolver (`Iterator::position`) resolves the
same name to the index of its *first* occurrence — and these differ, so one
query can read two different columns for the same name. -/
theorem c10_duplicate_header_first_vs_last (headers : List String) (name : String)
    (i j : Nat) (hne : i ≠ j)
    (hi : headers.get? i = some name) (hj : headers.get? j = some name) :
    ∃ p q, position (fun h => h == name) headers = some p ∧
      hmGet (buildColIdx headers) name = some q ∧
      headers.get? p = some name ∧ headers.get? q = some name ∧
      (∀ m, m < p → headers.get? m ≠ some name) ∧
      (∀ m, q < m → headers.get? m ≠ some name) ∧
      p < q := by
  obtain ⟨p, hp, hpi⟩ := position_exists (fun h => h == name) headers i name hi (by simp)
  obtain ⟨p2, hp2, hpj⟩ := position_exists (fun h => h == name) headers j name hj (by simp)
  rw [hp] at hp2
  injection hp2 with hpp
  subst hpp
  obtain ⟨a, hpa, hpatrue⟩ := position_spec (fun h => h == name) headers p hp
  have hpaname : headers.get? p = some name := by
    rw [beq_iff_eq] at hpatrue
    rw [hpa, hpatrue]
  obtain ⟨q, hq, hqi⟩ := lastIndexOfFrom_exists name headers 0 i hi
  obtain ⟨q2, hq2, hqj⟩ := lastIndexOfFrom_exists name headers 0 j hj
  rw [hq] at hq2
  injection hq2 with hqq
  subst hqq
  have hget : hmGet (buildColIdx headers) name = some q := by
    rw [buildColIdx, hmGet_buildColIdxAux name headers 0 [], hq]
  obtain ⟨-, hqget⟩ := lastIndexOfFrom_spec name headers 0 q hq
  rw [Nat.sub_zero] at hqget
  refine ⟨p, q, hp, hget, hpaname, hqget, ?_, ?_, by omega⟩
  · intro m hm hgetm
    have hfalse := position_first (fun h => h == name) headers p hp m name hm hgetm
    simp at hfalse
  · intro m hm
    exact lastIndexOfFrom_last name headers 0 q hq m (by omega)

/-- Claim C10, witness: on headers `a, b, a`, the projection resolves `a` to
the first occurrence and the filter hashmap to the last, and they differ. -/
theorem c10_witness :
    ∃ p q, position (fun h => h == "a") ["a", "b", "a"] = some p ∧
      hmGet (buildColIdx ["a", "b", "a"]) "a" = some q ∧
      ["a", "b", "a"].get? p = some "a" ∧ ["a", "b", "a"].get? q = some "a" ∧
      (∀ m, m < p → ["a", "b", "a"].get? m ≠ some "a") ∧
      (∀ m, q < m → ["a", "b", "a"].get? m ≠ some "a") ∧
      p < q :=
  c10_duplicate_header_first_vs_last ["a", "b", "a"] "a" 0 2 (by decide) rfl rfl
